import Mathlib

/-!
Verification development for the `compiler-compiler` repository
(Prototype_4 parser generator and its generated recognizer runtime,
plus the Prototype_3 EBNF meta-parser).

The Python sources are shallowly embedded: pure functions become Lean
functions, the mutable lexer/parser objects become explicit state
records, exceptions become `Except`, Python `set`s become lists whose
membership is the modelled property.  Functions that walk the grammar
AST recurse through child lists; each such walk is written as a pair of
mutually recursive functions (node form and list form), with the list
form equal to the evident `map`/`any`/`flatMap` of the node form.

The grammar-AST node classes (`Terminal`, `NonTerminal`, `Sequence`,
`Alternative`, `Repetition`, `Optional`, `Rule`) are imported by
`Prototype_4/parser_generator.py` from a `grammar_parser` module; their
shape is exactly the one of `Prototype_3/grammar_types.py` and of the
attribute accesses in `parser_generator.py` (`.value`, `.name`,
`.items`, `.options`, `.item`, `.definition`).
-/

namespace PG

/-- Grammar AST node (`grammar_types.py` dataclasses / the shape used by
`parser_generator.py`). -/
inductive Node where
  | terminal (value : String)
  | nonTerminal (name : String)
  | sequence (items : List Node)
  | alternative (options : List Node)
  | repetition (item : Node)
  | optional (item : Node)

/-- A grammar rule (`Rule(name, definition)`). -/
structure GRule where
  name : String
  definition : Node

/-- Python `str.isalpha` (ASCII fragment: nonempty and all alphabetic). -/
def pyIsAlpha (s : String) : Bool := !s.isEmpty && s.toList.all Char.isAlpha

/-- Python `str.isdigit` (ASCII fragment: nonempty and all decimal digits). -/
def pyIsDigit (s : String) : Bool := !s.isEmpty && s.toList.all Char.isDigit

/-- `ParserGenerator._is_digit_sequence_pattern`: the `number` rule must be a
`Sequence` whose first item is `NonTerminal("digit")`; if a second item
exists it must be `Repetition(NonTerminal("digit"))` (later items are
ignored); a bare (non-`Sequence`) definition yields `False`. -/
def isDigitSequencePattern : Node → Bool
  | .sequence items =>
    match items with
    | [] => false
    | first :: restItems =>
      match first with
      | .nonTerminal "digit" =>
        match restItems with
        | [] => true
        | second :: _ =>
          match second with
          | .repetition (.nonTerminal "digit") => true
          | _ => false
      | _ => false
  | _ => false

mutual

/-- `ParserGenerator._replace_number_in_node` as seen from a parent node:
a `NonTerminal("number")` child is replaced by the returned
`Terminal('integerConstant')`; other nodes are rewritten in place. -/
def childReplace : Node → Node
  | .terminal v => .terminal v
  | .nonTerminal n => if n = "number" then .terminal "integerConstant" else .nonTerminal n
  | .sequence items => .sequence (childReplaceList items)
  | .alternative options => .alternative (childReplaceList options)
  | .repetition item => .repetition (childReplace item)
  | .optional item => .optional (childReplace item)

/-- `childReplace` applied to each element of a child list. -/
def childReplaceList : List Node → List Node
  | [] => []
  | x :: xs => childReplace x :: childReplaceList xs

end

/-- `_replace_number_in_node` applied to a whole `rule.definition`:
`_replace_number_with_integer_constant` discards the returned replacement,
so a root `NonTerminal("number")` is only renamed in place to
`NonTerminal("integerConstant")` (the `Terminal` replacement is lost);
composite nodes are mutated exactly as in `childReplace`. -/
def topReplace : Node → Node
  | .terminal v => .terminal v
  | .nonTerminal n => if n = "number" then .nonTerminal "integerConstant" else .nonTerminal n
  | .sequence items => .sequence (childReplaceList items)
  | .alternative options => .alternative (childReplaceList options)
  | .repetition item => .repetition (childReplace item)
  | .optional item => .optional (childReplace item)

/-- The `for rule in self.ast: if rule.name == n: var = rule` scan
(last matching rule wins). -/
def findLast (ast : List GRule) (n : String) : Option GRule :=
  ast.foldl (fun acc r => if r.name = n then some r else acc) none

/-- `ParserGenerator._preprocess_grammar`: if both a `number` and a `digit`
rule exist and the `number` rule matches the digit-sequence pattern,
rewrite every rule definition. -/
def preprocessGrammar (ast : List GRule) : List GRule :=
  match findLast ast "number", findLast ast "digit" with
  | some numberRule, some _ =>
    if isDigitSequencePattern numberRule.definition then
      ast.map (fun r => { r with definition := topReplace r.definition })
    else ast
  | _, _ => ast

mutual

/-- Does the node tree contain `NonTerminal(n)`? -/
def containsNT (n : String) : Node → Bool
  | .terminal _ => false
  | .nonTerminal m => m == n
  | .sequence items => containsNTList n items
  | .alternative options => containsNTList n options
  | .repetition item => containsNT n item
  | .optional item => containsNT n item

/-- `containsNT` over a child list. -/
def containsNTList (n : String) : List Node → Bool
  | [] => false
  | x :: xs => containsNT n x || containsNTList n xs

end

mutual

/-- `ParserGenerator._get_all_nodes`: the node itself followed by all
descendant nodes. -/
def allNodes : Node → List Node
  | .terminal v => [.terminal v]
  | .nonTerminal n => [.nonTerminal n]
  | .sequence items => Node.sequence items :: allNodesList items
  | .alternative options => Node.alternative options :: allNodesList options
  | .repetition item => Node.repetition item :: allNodes item
  | .optional item => Node.optional item :: allNodes item

/-- `allNodes` over a child list. -/
def allNodesList : List Node → List Node
  | [] => []
  | x :: xs => allNodes x ++ allNodesList xs

end

/-- The condition under which `generate_parser_code` puts `'digit'` into
`skip_rules`: some rule is named `integerConstant`, or some rule's
definition tree still contains a `NonTerminal('integerConstant')`. -/
def skipDigitCond (ast : List GRule) : Bool :=
  ast.any (fun r => r.name == "integerConstant") ||
  ast.any (fun r => (allNodes r.definition).any (fun nd =>
    match nd with
    | .nonTerminal m => m == "integerConstant"
    | _ => false))

/-- The keys of the default `special_tokens` configuration. -/
def specialNames : List String := ["identifier", "integerConstant", "stringLiteral"]

mutual

/-- All `Terminal` values of a node tree, in visit order
(`_collect_terminals`'s `visit`). -/
def termValuesOf : Node → List String
  | .terminal v => [v]
  | .nonTerminal _ => []
  | .sequence items => termValuesOfList items
  | .alternative options => termValuesOfList options
  | .repetition item => termValuesOf item
  | .optional item => termValuesOf item

/-- `termValuesOf` over a child list. -/
def termValuesOfList : List Node → List String
  | [] => []
  | x :: xs => termValuesOf x ++ termValuesOfList xs

end

/-- All `Terminal` values of a grammar. -/
def terminalValues (ast : List GRule) : List String :=
  ast.flatMap (fun r => termValuesOf r.definition)

/-- `self.keywords` built by `_collect_terminals`: terminal values that are
not special tokens and satisfy `str.isalpha` (the Python `set` is modelled
by list membership). -/
def keywordsOf (ast : List GRule) : List String :=
  (terminalValues ast).filter (fun v => !(specialNames.contains v) && pyIsAlpha v)

/-- `self.symbols` built by `_collect_terminals`: terminal values that are
not special tokens, fail `str.isalpha`, and fail `str.isdigit`. -/
def symbolsOf (ast : List GRule) : List String :=
  (terminalValues ast).filter
    (fun v => !(specialNames.contains v) && !(pyIsAlpha v) && !(pyIsDigit v))

mutual

/-- The `parse_*` predicate calls appearing in the code that
`_generate_node_code` emits for a node (`match`/`True` emissions
contribute no call). -/
def callsOf : Node → List String
  | .terminal v =>
    if v = "" then []
    else if specialNames.contains v then ["parse_" ++ v]
    else []
  | .nonTerminal n =>
    if n = "integerConstant" then ["parse_integerConstant"] else ["parse_" ++ n]
  | .sequence items => callsOfList items
  | .alternative options => callsOfList options
  | .repetition item => callsOf item
  | .optional item => callsOf item

/-- `callsOf` over a child list. -/
def callsOfList : List Node → List String
  | [] => []
  | x :: xs => callsOf x ++ callsOfList xs

end

/-- Failure mode of `generate_parser_code`: the Python `IndexError` raised
by `self.ast[0].name` in `_generate_parser_methods` when the rule list is
empty. -/
inductive GenErr where
  | indexOutOfRange
deriving DecidableEq

/-- Structural model of the emitted parser source: the start rule used by
`parse()` and, per retained grammar rule, the emitted method's name and
the `parse_*` calls its body makes. -/
structure GenParser where
  startRule : String
  methods : List (String × List String)
deriving DecidableEq

/-- `ParserGenerator.generate_parser_code` on the (already preprocessed)
rule list: fails on an empty list (`self.ast[0]`), otherwise emits one
method per rule not in `skip_rules` (`skip_rules = {'digit'}` exactly when
`skipDigitCond` holds). -/
def generateParser (ast : List GRule) : Except GenErr GenParser :=
  match ast with
  | [] => .error .indexOutOfRange
  | r0 :: _ =>
    .ok { startRule := r0.name,
          methods := (ast.filter (fun r => !(skipDigitCond ast && r.name == "digit"))).map
            (fun r => (r.name, callsOf r.definition)) }

/-- The whole generation pipeline of `ParserGenerator`: `__init__`
preprocesses the grammar, then `generate_parser_code` runs on the
preprocessed rules. -/
def fullGenerate (ast : List GRule) : Except GenErr GenParser :=
  generateParser (preprocessGrammar ast)

/-- Names of the emitted per-rule methods (without the `parse_` prefix). -/
def emittedRuleNames (ast : List GRule) : List String :=
  (ast.filter (fun r => !(skipDigitCond ast && r.name == "digit"))).map (fun r => r.name)

/-- All method names defined in the emitted parser class: `parse`, the
three built-ins from `_generate_parser_methods`, and one `parse_<name>`
per retained rule. -/
def definedMethodNames (g : GenParser) : List String :=
  ["parse", "parse_identifier", "parse_integerConstant", "parse_stringLiteral"] ++
    g.methods.map (fun m => "parse_" ++ m.1)

/-- All `parse_*` calls the emitted parser makes: `parse()` calls the
start-rule predicate, and each method body contributes its calls. -/
def allCalls (g : GenParser) : List String :=
  ("parse_" ++ g.startRule) :: g.methods.flatMap (fun m => m.2)

/-! ## Target-lexer runtime (`lexer_generator.py`, class `StandardLexer`) -/

/-- `TokenType` of the generated lexer. -/
inductive TokenType where
  | IDENTIFIER
  | INTEGER
  | STRING
  | KEYWORD
  | SYMBOL
  | EOF
deriving DecidableEq

/-- `Token` dataclass of the generated lexer. -/
structure Token where
  type : TokenType
  value : String
  line : Nat
  column : Nat
deriving DecidableEq

/-- The exceptions `StandardLexer` raises: `error()` for an invalid
character and the unterminated-string failure in `string()`. -/
inductive LexErr where
  | invalidChar (c : Char) (line column : Nat)
  | unterminatedString (line column : Nat)
deriving DecidableEq

/-- The symbol set hard-coded in `StandardLexer.__init__`. -/
def lexerFixedSymbols : List Char :=
  ['\x7b', '\x7d', '(', ')', '[', ']', '.', ',', ';', '+', '-',
   '*', '/', '&', '|', '<', '>', '=', '~']

/-- The mutable state of a `StandardLexer` object.  `currentChar` is a
stored field, exactly as in the source: assigning `lexer.pos` from the
generated parser does not resynchronize it. -/
structure LexerState where
  text : List Char
  keywords : List String
  pos : Nat
  line : Nat
  column : Nat
  currentChar : Option Char
  symbols : List Char
deriving DecidableEq

/-- `StandardLexer.__init__(text, keywords)`. -/
def initLexer (text : List Char) (keywords : List String) : LexerState :=
  { text := text, keywords := keywords, pos := 0, line := 1, column := 1,
    currentChar := text[0]?, symbols := lexerFixedSymbols }

/-- `StandardLexer.advance`: increment `pos`, update `line`/`column`
according to the character just left, refetch `currentChar`. -/
def advance (s : LexerState) : LexerState :=
  if s.currentChar = some '\n' then
    { s with pos := s.pos + 1, line := s.line + 1, column := 1,
             currentChar := s.text[s.pos + 1]? }
  else
    { s with pos := s.pos + 1, column := s.column + 1,
             currentChar := s.text[s.pos + 1]? }

/-- `StandardLexer.peek`. -/
def peek (s : LexerState) : Option Char := s.text[s.pos + 1]?

/-- Termination measure for the lexer loops: remaining text plus one if a
current character is loaded.  `advance` strictly decreases it whenever
`currentChar` is loaded, even on states whose `currentChar` is stale. -/
def lexMeasure (s : LexerState) : Nat :=
  (s.text.length - s.pos) + (if s.currentChar.isSome then 1 else 0)

theorem lexMeasure_advance_le (s : LexerState) :
    lexMeasure (advance s) ≤ lexMeasure s := by
  rcases Nat.lt_or_ge (s.pos + 1) s.text.length with h | h
  · unfold lexMeasure advance
    split <;> simp [List.getElem?_eq_getElem h] <;> omega
  · unfold lexMeasure advance
    split <;> simp [List.getElem?_eq_none (by omega : s.text.length ≤ s.pos + 1)] <;> omega

theorem lexMeasure_advance_lt (s : LexerState) (h : s.currentChar.isSome) :
    lexMeasure (advance s) < lexMeasure s := by
  rcases Nat.lt_or_ge (s.pos + 1) s.text.length with h1 | h1
  · unfold lexMeasure advance
    split <;> simp [List.getElem?_eq_getElem h1, h] <;> omega
  · unfold lexMeasure advance
    split <;>
      simp [List.getElem?_eq_none (by omega : s.text.length ≤ s.pos + 1), h] <;> omega

/-- `StandardLexer.skip_whitespace`. -/
def skipWhitespace (s : LexerState) : LexerState :=
  match h : s.currentChar with
  | some c => if c.isWhitespace then skipWhitespace (advance s) else s
  | none => s
termination_by lexMeasure s
decreasing_by exact lexMeasure_advance_lt s (by rw [h]; rfl)

/-- The line-comment loop of `StandardLexer.skip_comment`. -/
def skipCommentLine (s : LexerState) : LexerState :=
  match h : s.currentChar with
  | some c => if c ≠ '\n' then skipCommentLine (advance s) else s
  | none => s
termination_by lexMeasure s
decreasing_by exact lexMeasure_advance_lt s (by rw [h]; rfl)

/-- The block-comment loop of `StandardLexer.skip_comment` (entered after
the two initial `advance` calls). -/
def skipCommentBlock (s : LexerState) : LexerState :=
  match h : s.currentChar with
  | some c =>
    if c = '*' ∧ peek s = some '/' then advance (advance s)
    else skipCommentBlock (advance s)
  | none => s
termination_by lexMeasure s
decreasing_by exact lexMeasure_advance_lt s (by rw [h]; rfl)

/-- `StandardLexer.skip_comment`. -/
def skipComment (s : LexerState) : LexerState :=
  if peek s = some '/' then skipCommentLine s
  else if peek s = some '*' then skipCommentBlock (advance (advance s))
  else s

/-- The collection loop of `StandardLexer.identifier`. -/
def identLoop (s : LexerState) (acc : String) : String × LexerState :=
  match h : s.currentChar with
  | some c => if c.isAlphanum || c = '_' then identLoop (advance s) (acc.push c) else (acc, s)
  | none => (acc, s)
termination_by lexMeasure s
decreasing_by exact lexMeasure_advance_lt s (by rw [h]; rfl)

/-- `StandardLexer.identifier`: collect the run, then classify against the
keyword set. -/
def identifier (s : LexerState) : Token × LexerState :=
  let startColumn := s.column
  match identLoop s "" with
  | (result, s1) =>
    if s1.keywords.contains result then (⟨.KEYWORD, result, s1.line, startColumn⟩, s1)
    else (⟨.IDENTIFIER, result, s1.line, startColumn⟩, s1)

/-- The collection loop of `StandardLexer.number`. -/
def numberLoop (s : LexerState) (acc : String) : String × LexerState :=
  match h : s.currentChar with
  | some c => if c.isDigit then numberLoop (advance s) (acc.push c) else (acc, s)
  | none => (acc, s)
termination_by lexMeasure s
decreasing_by exact lexMeasure_advance_lt s (by rw [h]; rfl)

/-- `StandardLexer.number`. -/
def number (s : LexerState) : Token × LexerState :=
  let startColumn := s.column
  match numberLoop s "" with
  | (result, s1) => (⟨.INTEGER, result, s1.line, startColumn⟩, s1)

/-- The collection loop of `StandardLexer.string` (stops before the
closing quote or at end of input). -/
def stringLoop (s : LexerState) (acc : String) : String × LexerState :=
  match h : s.currentChar with
  | some c => if c ≠ '"' then stringLoop (advance s) (acc.push c) else (acc, s)
  | none => (acc, s)
termination_by lexMeasure s
decreasing_by exact lexMeasure_advance_lt s (by rw [h]; rfl)

/-- `StandardLexer.string`: skip the opening quote, collect, then either
consume the closing quote or raise the unterminated-string error. -/
def stringTok (s : LexerState) : Except LexErr (Token × LexerState) :=
  let startColumn := s.column
  match stringLoop (advance s) "" with
  | (result, s1) =>
    if s1.currentChar = some '"' then
      .ok (⟨.STRING, result, (advance s1).line, startColumn⟩, advance s1)
    else .error (.unterminatedString s1.line startColumn)

theorem skipWhitespace_measure_le (s : LexerState) :
    lexMeasure (skipWhitespace s) ≤ lexMeasure s := by
  induction s using skipWhitespace.induct with
  | case1 x c h hw ih =>
    rw [skipWhitespace, h]
    simp only [hw, if_true]
    exact le_trans ih (lexMeasure_advance_le x)
  | case2 x c h hnw => rw [skipWhitespace, h]; simp [hnw]
  | case3 x h => rw [skipWhitespace, h]

theorem skipCommentLine_measure_le (s : LexerState) :
    lexMeasure (skipCommentLine s) ≤ lexMeasure s := by
  induction s using skipCommentLine.induct with
  | case1 x c h hne ih =>
    rw [skipCommentLine, h]
    simp only [ne_eq, hne, not_false_eq_true, if_true]
    exact le_trans ih (lexMeasure_advance_le x)
  | case2 x c h hne => rw [skipCommentLine, h]; simp [hne]
  | case3 x h => rw [skipCommentLine, h]

theorem skipCommentBlock_measure_le (s : LexerState) :
    lexMeasure (skipCommentBlock s) ≤ lexMeasure s := by
  induction s using skipCommentBlock.induct with
  | case1 x c h hstar =>
    rw [skipCommentBlock, h]
    simp only [hstar, and_self, if_true]
    exact le_trans (lexMeasure_advance_le _) (lexMeasure_advance_le x)
  | case2 x c h hstar ih =>
    rw [skipCommentBlock, h]
    simp only [hstar, if_false]
    exact le_trans ih (lexMeasure_advance_le x)
  | case3 x h => rw [skipCommentBlock, h]

theorem skipWhitespace_measure_lt (s : LexerState) (c : Char)
    (h : s.currentChar = some c) (hw : c.isWhitespace) :
    lexMeasure (skipWhitespace s) < lexMeasure s := by
  rw [skipWhitespace]
  rw [h]
  simp only [hw, if_true]
  exact lt_of_le_of_lt (skipWhitespace_measure_le (advance s))
    (lexMeasure_advance_lt s (by rw [h]; rfl))

theorem skipComment_measure_lt (s : LexerState)
    (h : s.currentChar = some '/') (hp : peek s = some '/' ∨ peek s = some '*') :
    lexMeasure (skipComment s) < lexMeasure s := by
  have hsome : s.currentChar.isSome := by rw [h]; rfl
  unfold skipComment
  rcases hp with hp | hp
  · rw [if_pos hp]
    rw [skipCommentLine, h]
    simp only [ne_eq, reduceIte, decide_not]
    exact lt_of_le_of_lt (skipCommentLine_measure_le (advance s))
      (lexMeasure_advance_lt s hsome)
  · by_cases hp2 : peek s = some '/'
    · rw [if_pos hp2]
      rw [skipCommentLine, h]
      simp only [ne_eq, reduceIte, decide_not]
      exact lt_of_le_of_lt (skipCommentLine_measure_le (advance s))
        (lexMeasure_advance_lt s hsome)
    · rw [if_neg hp2, if_pos hp]
      exact lt_of_le_of_lt
        (le_trans (skipCommentBlock_measure_le _) (lexMeasure_advance_le _))
        (lexMeasure_advance_lt s hsome)

/-- `StandardLexer.get_next_token`: the dispatch loop.  Whitespace and
comments restart the loop; everything else produces a token, an error, or
the EOF token once `currentChar` is exhausted. -/
def getNextToken (s : LexerState) : Except LexErr (Token × LexerState) :=
  match h : s.currentChar with
  | none => .ok (⟨.EOF, "", s.line, s.column⟩, s)
  | some c =>
    if hw : c.isWhitespace then getNextToken (skipWhitespace s)
    else if hc : c = '/' then
      if hp : peek s = some '/' ∨ peek s = some '*' then getNextToken (skipComment s)
      else .ok (⟨.SYMBOL, "/", (advance s).line, s.column⟩, advance s)
    else if c.isAlpha then .ok (identifier s)
    else if c.isDigit then .ok (number s)
    else if c = '"' then stringTok s
    else if s.symbols.contains c then
      .ok (⟨.SYMBOL, c.toString, s.line, s.column⟩, advance s)
    else .error (.invalidChar c s.line s.column)
termination_by lexMeasure s
decreasing_by
  · exact skipWhitespace_measure_lt s c h hw
  · exact skipComment_measure_lt s (hc ▸ h) hp

/-! ## Generated recognizer runtime (`parser_generator.py`, emitted class
`GeneratedParser`) -/

/-- The mutable state of a `GeneratedParser` object: its lexer, the
lookahead token, the memoization cache (a `(method name, pos)`-keyed map
storing `(result, post pos)`), and the keyword/symbol literals emitted in
the header. -/
structure PState where
  lexer : LexerState
  currentToken : Token
  cache : List ((String × Nat) × (Bool × Nat))
  keywords : List String
  symbols : List String
deriving DecidableEq

/-- `GeneratedParser.next_token`. -/
def nextTokenP (p : PState) : Except LexErr PState :=
  (getNextToken p.lexer).map fun r => { p with currentToken := r.1, lexer := r.2 }

/-- `GeneratedParser.__init__(text)` for the parser generated from `ast`:
emit the keyword/symbol literals collected from the preprocessed grammar,
construct `StandardLexer(text, keywords)`, and prime the lookahead with
one `next_token()` call (which may raise a lexer error). -/
def mkGeneratedParser (ast : List GRule) (text : List Char) : Except LexErr PState :=
  (getNextToken (initLexer text (keywordsOf (preprocessGrammar ast)))).map fun r =>
    { lexer := r.2, currentToken := r.1, cache := [],
      keywords := keywordsOf (preprocessGrammar ast),
      symbols := symbolsOf (preprocessGrammar ast) }

/-- `GeneratedParser.match(expected_type, expected_value)`: on a type
(and, when given, value) match, consume the token and return `True`;
otherwise return `False` without advancing. -/
def matchTok (expectedType : TokenType) (expectedValue : Option String) (p : PState) :
    Except LexErr (Bool × PState) :=
  if p.currentToken.type = expectedType ∧
      (expectedValue = none ∨ expectedValue = some p.currentToken.value) then
    (nextTokenP p).map fun p1 => (true, p1)
  else .ok (false, p)

/-- The `self.lexer.pos = n` assignment the generated code performs for
backtracking: it touches nothing but the stored position (in particular
not `currentChar`, `line`, `column`, or the lookahead token). -/
def setLexPos (p : PState) (n : Nat) : PState :=
  { p with lexer := { p.lexer with pos := n } }

/-- `GeneratedParser._repeat_parse(parse_fn)`, indexed by fuel; `none`
means the `while True` loop has not terminated within `fuel` iterations.
Each iteration saves `self.lexer.pos`, runs the body, and either
continues (body returned `True`) or restores `pos` and returns `True`. -/
def repeatParse (fuel : Nat) (body : PState → Except LexErr (Bool × PState)) (p : PState) :
    Option (Except LexErr (Bool × PState)) :=
  match fuel with
  | 0 => none
  | fuel + 1 =>
    match body p with
    | .error e => some (.error e)
    | .ok (b, p1) =>
      if b then repeatParse fuel body p1
      else some (.ok (true, setLexPos p1 p.lexer.pos))

/-- The emitted `parse_<name>` method template of `generate_parser_code`
(without the `@memoize` wrapper): save `pos_start = self.lexer.pos`, run
the rule body; on failure restore only `self.lexer.pos`. -/
def genMethod (body : PState → Except LexErr (Bool × PState)) (p : PState) :
    Except LexErr (Bool × PState) :=
  match body p with
  | .error e => .error e
  | .ok (b, p1) => if b then .ok (true, p1) else .ok (false, setLexPos p1 p.lexer.pos)

/-- Lookup in the memoization cache (Python dict membership). -/
def cacheLookup (cache : List ((String × Nat) × (Bool × Nat))) (k : String × Nat) :
    Option (Bool × Nat) :=
  (cache.find? (fun e => e.1.1 == k.1 && e.1.2 == k.2)).map (fun e => e.2)

/-- The `GeneratedParser.memoize` decorator: key `(name, self.lexer.pos)`;
on a hit restore only `self.lexer.pos` to the cached post-position and
return the cached result; on a miss run the function and record
`(result, self.lexer.pos)`. -/
def memoize (name : String) (f : PState → Except LexErr (Bool × PState)) (p : PState) :
    Except LexErr (Bool × PState) :=
  match cacheLookup p.cache (name, p.lexer.pos) with
  | some r => .ok (r.1, setLexPos p r.2)
  | none =>
    match f p with
    | .error e => .error e
    | .ok (r, p1) =>
      .ok (r, { p1 with cache := ((name, p.lexer.pos), (r, p1.lexer.pos)) :: p1.cache })

/-- The grammar `s = "a" , "b" ;`. -/
def G1 : List GRule := [⟨"s", .sequence [.terminal "a", .terminal "b"]⟩]

/-- The body emitted for rule `s` of `G1`:
`self.match(TokenType.KEYWORD, "a") and self.match(TokenType.KEYWORD, "b")`
(Python `and` short-circuits). -/
def bodyG1s (p : PState) : Except LexErr (Bool × PState) :=
  match matchTok .KEYWORD (some "a") p with
  | .error e => .error e
  | .ok (b1, p1) => if b1 then matchTok .KEYWORD (some "b") p1 else .ok (false, p1)

/-- The emitted `parse_s` method of the parser generated from `G1`
(memoized method template around the rule body). -/
def parseG1s (p : PState) : Except LexErr (Bool × PState) :=
  memoize "parse_s" (genMethod bodyG1s) p

/-- The input `"a c"`. -/
def c1text : List Char := ['a', ' ', 'c']

/-- The parser state right after `GeneratedParser("a c")` construction
(lookahead `KEYWORD "a"`, lexer stopped on the space). -/
def pC1start : PState :=
  { lexer := { text := c1text, keywords := ["a", "b"], pos := 1, line := 1, column := 2,
               currentChar := some ' ', symbols := lexerFixedSymbols },
    currentToken := ⟨.KEYWORD, "a", 1, 1⟩, cache := [],
    keywords := ["a", "b"], symbols := [] }

/-- The parser state after the failed `parse_s()` call on `"a c"`: the
lexer position is restored to 1, but the lookahead is `IDENTIFIER "c"`,
the column is 4, and `currentChar` is exhausted. -/
def pC1end : PState :=
  { lexer := { text := c1text, keywords := ["a", "b"], pos := 1, line := 1, column := 4,
               currentChar := none, symbols := lexerFixedSymbols },
    currentToken := ⟨.IDENTIFIER, "c", 1, 3⟩,
    cache := [(("parse_s", 1), (false, 1))],
    keywords := ["a", "b"], symbols := [] }

/-- The grammar `s = { [ "a" ] } ;` (a repetition whose body can succeed
without consuming anything). -/
def G2 : List GRule := [⟨"s", .repetition (.optional (.terminal "a"))⟩]

/-- The repetition body emitted for `G2`'s rule `s`:
`(self.match(TokenType.KEYWORD, "a") or True)`. -/
def bodyG2opt (p : PState) : Except LexErr (Bool × PState) :=
  match matchTok .KEYWORD (some "a") p with
  | .error e => .error e
  | .ok (b, p1) => .ok (b || true, p1)

/-- The parser state right after `GeneratedParser("")` construction for
`G2` (empty input: the lookahead is immediately EOF). -/
def pC2 : PState :=
  { lexer := { text := [], keywords := ["a"], pos := 0, line := 1, column := 1,
               currentChar := none, symbols := lexerFixedSymbols },
    currentToken := ⟨.EOF, "", 1, 1⟩, cache := [],
    keywords := ["a"], symbols := [] }

/-- `TokenType` of `grammar_types.py` (meta-grammar tokens). -/
inductive MetaTokenType where
  | IDENTIFIER
  | TERMINAL
  | EQUALS
  | SEMICOLON
  | COMMA
  | PIPE
  | LPAREN
  | RPAREN
  | LBRACE
  | RBRACE
  | LBRACKET
  | RBRACKET
  | LANGLE
  | RANGLE
  | STAR
  | PLUS
  | QUESTION
  | EOF
deriving DecidableEq

/-- Meta-grammar `Token` dataclass. -/
structure MetaToken where
  type : MetaTokenType
  value : String
  line : Nat
  col : Nat
deriving DecidableEq

/-- `EBNFParser.error(expected)` carriers: `eat` reports the expected
token type, the parse functions report a textual description
(`'term'`, `'identifier'`); `fuelOut` is the fuel sentinel of this
embedding, never produced on the runs stated below. -/
inductive MErr where
  | expectedType (ty : MetaTokenType)
  | expectedDesc (d : String)
  | fuelOut
deriving DecidableEq

/-- The meta-lexer keeps returning EOF tokens at end of input; the token
stream is modelled as a list whose exhaustion stands for EOF. -/
def eofMetaToken : MetaToken := ⟨.EOF, "", 0, 0⟩

/-- `self.current_token`. -/
def curTok (ts : List MetaToken) : MetaToken := ts.headD eofMetaToken

/-- `EBNFParser.eat(token_type)`: consume on a type match, else
`error(str(token_type))`. -/
def eat (ty : MetaTokenType) (ts : List MetaToken) : Except MErr (List MetaToken) :=
  if (curTok ts).type = ty then .ok ts.tail else .error (.expectedType ty)

/-- The postfix step closing `EBNFParser.parse_term`: `*`, `+`, `?` after
the already-parsed atom. -/
def postfixStep (term : Node) (ts : List MetaToken) : Except MErr (Node × List MetaToken) :=
  if (curTok ts).type = .STAR then .ok (.repetition term, ts.tail)
  else if (curTok ts).type = .PLUS then .ok (.sequence [term, .repetition term], ts.tail)
  else if (curTok ts).type = .QUESTION then .ok (.optional term, ts.tail)
  else .ok (term, ts)

mutual

/-- `EBNFParser.parse_expression`: alternatives separated by `|`; a single
alternative is returned unwrapped. -/
def parseExpression : Nat → List MetaToken → Except MErr (Node × List MetaToken)
  | 0, _ => .error .fuelOut
  | fuel + 1, ts =>
    match parseSequence fuel ts with
    | .error e => .error e
    | .ok (t, ts1) =>
      match parseExpressionLoop fuel [t] ts1 with
      | .error e => .error e
      | .ok (terms, ts2) =>
        match terms with
        | [single] => .ok (single, ts2)
        | _ => .ok (.alternative terms, ts2)

/-- The `while current_token.type == PIPE` loop of `parse_expression`. -/
def parseExpressionLoop :
    Nat → List Node → List MetaToken → Except MErr (List Node × List MetaToken)
  | 0, _, _ => .error .fuelOut
  | fuel + 1, acc, ts =>
    if (curTok ts).type = .PIPE then
      match eat .PIPE ts with
      | .error e => .error e
      | .ok ts1 =>
        match parseSequence fuel ts1 with
        | .error e => .error e
        | .ok (t, ts2) => parseExpressionLoop fuel (acc ++ [t]) ts2
    else .ok (acc, ts)

/-- `EBNFParser.parse_sequence`: terms separated by `,`; a single term is
returned unwrapped. -/
def parseSequence : Nat → List MetaToken → Except MErr (Node × List MetaToken)
  | 0, _ => .error .fuelOut
  | fuel + 1, ts =>
    match parseTerm fuel ts with
    | .error e => .error e
    | .ok (t, ts1) =>
      match parseSequenceLoop fuel [t] ts1 with
      | .error e => .error e
      | .ok (terms, ts2) =>
        match terms with
        | [single] => .ok (single, ts2)
        | _ => .ok (.sequence terms, ts2)

/-- The `while current_token.type == COMMA` loop of `parse_sequence`. -/
def parseSequenceLoop :
    Nat → List Node → List MetaToken → Except MErr (List Node × List MetaToken)
  | 0, _, _ => .error .fuelOut
  | fuel + 1, acc, ts =>
    if (curTok ts).type = .COMMA then
      match eat .COMMA ts with
      | .error e => .error e
      | .ok ts1 =>
        match parseTerm fuel ts1 with
        | .error e => .error e
        | .ok (t, ts2) => parseSequenceLoop fuel (acc ++ [t]) ts2
    else .ok (acc, ts)

/-- `EBNFParser.parse_term`: parse one atom — a `TERMINAL`, an
`IDENTIFIER`, a parenthesized expression, a braced expression (returned
immediately as `Repetition`), or a bracketed expression (returned
immediately as `Optional`) — then, except in the brace/bracket branches
(whose `return` skips it), apply the postfix `*`/`+`/`?` step. -/
def parseTerm : Nat → List MetaToken → Except MErr (Node × List MetaToken)
  | 0, _ => .error .fuelOut
  | fuel + 1, ts =>
    let tok := curTok ts
    if tok.type = .TERMINAL then
      match eat .TERMINAL ts with
      | .error e => .error e
      | .ok ts1 => postfixStep (.terminal tok.value) ts1
    else if tok.type = .IDENTIFIER then
      match eat .IDENTIFIER ts with
      | .error e => .error e
      | .ok ts1 => postfixStep (.nonTerminal tok.value) ts1
    else if tok.type = .LPAREN then
      match eat .LPAREN ts with
      | .error e => .error e
      | .ok ts0 =>
        match parseExpression fuel ts0 with
        | .error e => .error e
        | .ok (term, ts1) =>
          match eat .RPAREN ts1 with
          | .error e => .error e
          | .ok ts2 => postfixStep term ts2
    else if tok.type = .LBRACE then
      match eat .LBRACE ts with
      | .error e => .error e
      | .ok ts0 =>
        match parseExpression fuel ts0 with
        | .error e => .error e
        | .ok (term, ts1) =>
          match eat .RBRACE ts1 with
          | .error e => .error e
          | .ok ts2 => .ok (.repetition term, ts2)
    else if tok.type = .LBRACKET then
      match eat .LBRACKET ts with
      | .error e => .error e
      | .ok ts0 =>
        match parseExpression fuel ts0 with
        | .error e => .error e
        | .ok (term, ts1) =>
          match eat .RBRACKET ts1 with
          | .error e => .error e
          | .ok ts2 => .ok (.optional term, ts2)
    else .error (.expectedDesc "term")

end

/-- Helper for building meta-tokens at line 1, column 1. -/
def mkTok (ty : MetaTokenType) (v : String) : MetaToken := ⟨ty, v, 1, 1⟩

/-! ### Further concrete grammars used by the theorems -/

/-- The grammar `expr = "(" , number , ")" ; number = digit , { digit } ;
digit = "0" | "1" ;` — `number` references appear only nested inside other
nodes. -/
def G3 : List GRule :=
  [⟨"expr", .sequence [.terminal "(", .nonTerminal "number", .terminal ")"]⟩,
   ⟨"number", .sequence [.nonTerminal "digit", .repetition (.nonTerminal "digit")]⟩,
   ⟨"digit", .alternative [.terminal "0", .terminal "1"]⟩]

/-- The grammar `s = number , ";" ; number = digit ; digit = "0" ;` —
the `number` rule is a bare `NonTerminal("digit")`. -/
def G3b : List GRule :=
  [⟨"s", .sequence [.nonTerminal "number", .terminal ";"]⟩,
   ⟨"number", .nonTerminal "digit"⟩,
   ⟨"digit", .terminal "0"⟩]

/-- The grammar `s = "12" | "" ;`. -/
def G4 : List GRule := [⟨"s", .alternative [.terminal "12", .terminal ""]⟩]

/-- The grammar `s = "!" ;` (its only symbol is not in the lexer's
hard-coded set). -/
def G5 : List GRule := [⟨"s", .terminal "!"⟩]

/-- The lexer built by the parser generated from `ast`, as constructed in
the emitted `__init__`: `StandardLexer(text, self.keywords)` where
`self.keywords` is the collected keyword literal. -/
def genLexerFor (ast : List GRule) (text : List Char) : LexerState :=
  initLexer text (keywordsOf (preprocessGrammar ast))

/-- The grammar `s = ghost ;` with no rule named `ghost`. -/
def G8 : List GRule := [⟨"s", .nonTerminal "ghost"⟩]

theorem containsNT_childReplace :
    ∀ nd : Node, containsNT "number" (childReplace nd) = false :=
  childReplace.induct
    (fun nd => containsNT "number" (childReplace nd) = false)
    (fun xs => containsNTList "number" (childReplaceList xs) = false)
    (fun v => by simp [childReplace, containsNT])
    (by simp [childReplace, containsNT])
    (fun n hn => by simp [childReplace, containsNT, hn])
    (fun items ih => by simpa [childReplace, containsNT] using ih)
    (fun options ih => by simpa [childReplace, containsNT] using ih)
    (fun item ih => by simpa [childReplace, containsNT] using ih)
    (fun item ih => by simpa [childReplace, containsNT] using ih)
    (by simp [childReplaceList, containsNTList])
    (fun x xs ih1 ih2 => by simp [childReplaceList, containsNTList, ih1, ih2])

theorem containsNTList_childReplaceList :
    ∀ xs : List Node, containsNTList "number" (childReplaceList xs) = false := by
  intro xs
  induction xs with
  | nil => simp [childReplaceList, containsNTList]
  | cons x xs ih =>
    simp [childReplaceList, containsNTList, containsNT_childReplace, ih]

theorem containsNT_topReplace (nd : Node) :
    containsNT "number" (topReplace nd) = false := by
  cases nd with
  | terminal v => simp [topReplace, containsNT]
  | nonTerminal n =>
    by_cases hn : n = "number" <;>
      simp [topReplace, containsNT, hn]
  | sequence items =>
    simpa [topReplace, containsNT] using containsNTList_childReplaceList items
  | alternative options =>
    simpa [topReplace, containsNT] using containsNTList_childReplaceList options
  | repetition item =>
    simpa [topReplace, containsNT] using containsNT_childReplace item
  | optional item =>
    simpa [topReplace, containsNT] using containsNT_childReplace item

theorem findLast_mem {ast : List GRule} {n : String} {r : GRule} :
    findLast ast n = some r → r ∈ ast ∧ r.name = n := by
  have key : ∀ (l : List GRule) (acc : Option GRule),
      l.foldl (fun acc r2 => if r2.name = n then some r2 else acc) acc = some r →
      (r ∈ l ∧ r.name = n) ∨ acc = some r := by
    intro l
    induction l with
    | nil => intro acc h; exact Or.inr h
    | cons x xs ih =>
      intro acc h
      simp only [List.foldl_cons] at h
      rcases ih _ h with h1 | h1
      · exact Or.inl ⟨List.mem_cons_of_mem x h1.1, h1.2⟩
      · by_cases hx : x.name = n
        · rw [if_pos hx] at h1
          obtain rfl : x = r := Option.some.inj h1
          exact Or.inl ⟨List.mem_cons_self _ _, hx⟩
        · rw [if_neg hx] at h1
          exact Or.inr h1
  intro h
  rcases key ast none h with h1 | h1
  · exact h1
  · cases h1

theorem preprocessGrammar_names (ast : List GRule) :
    (preprocessGrammar ast).map GRule.name = ast.map GRule.name := by
  unfold preprocessGrammar
  cases h1 : findLast ast "number" with
  | none => cases findLast ast "digit" <;> rfl
  | some nr =>
    cases h2 : findLast ast "digit" with
    | none => rfl
    | some dr =>
      by_cases hp : isDigitSequencePattern nr.definition = true
      · show List.map GRule.name
          (if isDigitSequencePattern nr.definition = true then
            List.map (fun r => { name := r.name, definition := topReplace r.definition }) ast
          else ast) = List.map GRule.name ast
        rw [if_pos hp, List.map_map]
        rfl
      · show List.map GRule.name
          (if isDigitSequencePattern nr.definition = true then
            List.map (fun r => { name := r.name, definition := topReplace r.definition }) ast
          else ast) = List.map GRule.name ast
        rw [if_neg hp]

/-- `callsOf` contains `parse_<n>` whenever the node tree contains a
`NonTerminal(n)` for a non-special `n`. -/
theorem mem_callsOf_of_containsNT (n : String) (hns : n ∉ specialNames) :
    ∀ d : Node, containsNT n d = true → ("parse_" ++ n) ∈ callsOf d :=
  containsNT.induct n
    (fun d => containsNT n d = true → ("parse_" ++ n) ∈ callsOf d)
    (fun xs => containsNTList n xs = true → ("parse_" ++ n) ∈ callsOfList xs)
    (fun v => by simp [containsNT])
    (fun m => by
      intro h
      have hm : m = n := by simpa [containsNT] using h
      subst hm
      have hne : m ≠ "integerConstant" := by
        intro he
        exact hns (by rw [he]; simp [specialNames])
      simp [callsOf, hne])
    (fun items ih => by
      intro h
      simpa [callsOf] using ih (by simpa [containsNT] using h))
    (fun options ih => by
      intro h
      simpa [callsOf] using ih (by simpa [containsNT] using h))
    (fun item ih => by
      intro h
      simpa [callsOf] using ih (by simpa [containsNT] using h))
    (fun item ih => by
      intro h
      simpa [callsOf] using ih (by simpa [containsNT] using h))
    (by simp [containsNTList])
    (fun x xs ih1 ih2 => by
      intro h
      rcases (by simpa [containsNTList] using h : containsNT n x = true ∨ containsNTList n xs = true) with h1 | h1
      · simp [callsOfList]
        exact Or.inl (ih1 h1)
      · simp [callsOfList]
        exact Or.inr (ih2 h1))

theorem parsePrefix_inj {a b : String} (h : "parse_" ++ a = "parse_" ++ b) : a = b := by
  cases a with
  | mk da =>
    cases b with
    | mk db =>
      have h2 := congrArg String.data h
      simp only [String.data_append] at h2
      have h3 := List.append_cancel_left h2
      exact congrArg String.mk h3

/-! ## Claim theorems -/

/-- C1 (counterexample): on the grammar `s = "a" , "b" ;` and input
`"a c"`, the generated `parse_s()` returns `False` but the cursor state is
not fully restored: the lexer position is back at its entry value, while
the lookahead token, the column, and the lexer's current character all
still reflect the failed attempt — refuting the claim that the entire
(position, line, column, lookahead) tuple is restored on failure. -/
theorem C1_counterexample :
    mkGeneratedParser G1 c1text = .ok pC1start ∧
    parseG1s pC1start = .ok (false, pC1end) ∧
    pC1end.lexer.pos = pC1start.lexer.pos ∧
    pC1end.currentToken ≠ pC1start.currentToken ∧
    pC1end.lexer.column ≠ pC1start.lexer.column ∧
    pC1end.lexer.currentChar ≠ pC1start.lexer.currentChar := by
  refine ⟨?_, ?_, rfl, by decide, by decide, by decide⟩
  · simp +decide [mkGeneratedParser, Except.map, getNextToken, skipWhitespace, skipComment,
      skipCommentLine, skipCommentBlock, identifier, identLoop, advance, peek, initLexer, G1,
      c1text, keywordsOf, preprocessGrammar, findLast, terminalValues, termValuesOf,
      termValuesOfList, pyIsAlpha, specialNames, symbolsOf, pyIsDigit, lexerFixedSymbols,
      pC1start]
  · simp +decide [parseG1s, memoize, cacheLookup, genMethod, bodyG1s, matchTok, nextTokenP,
      setLexPos, Except.map, getNextToken, skipWhitespace, skipComment, skipCommentLine,
      skipCommentBlock, identifier, identLoop, advance, peek, c1text, lexerFixedSymbols,
      pC1start, pC1end]

/-- C1 (amended): a generated predicate that returns `False` on a
non-memoized call restores only the lexer byte position
(`self.lexer.pos = pos_start`); the line, column, lookahead token and the
lexer's `current_char` are left as the failed attempt set them. -/
theorem C1_amended_only_pos_restored (name : String)
    (body : PState → Except LexErr (Bool × PState)) (p p1 : PState)
    (hmiss : cacheLookup p.cache (name, p.lexer.pos) = none)
    (hrun : memoize name (genMethod body) p = .ok (false, p1)) :
    p1.lexer.pos = p.lexer.pos := by
  unfold memoize at hrun
  rw [hmiss] at hrun
  cases hb : body p with
  | error e =>
    have hg : genMethod body p = Except.error e := by unfold genMethod; rw [hb]
    rw [hg] at hrun
    exact absurd hrun (by simp)
  | ok r =>
    obtain ⟨b, q⟩ := r
    cases b with
    | true =>
      have hg : genMethod body p = .ok (true, q) := by unfold genMethod; rw [hb]; rfl
      rw [hg] at hrun
      simp at hrun
    | false =>
      have hg : genMethod body p = .ok (false, setLexPos q p.lexer.pos) := by
        unfold genMethod; rw [hb]; rfl
      rw [hg] at hrun
      simp only [Except.ok.injEq, Prod.mk.injEq] at hrun
      obtain ⟨-, h2⟩ := hrun
      rw [← h2]
      rfl

/-- Witness for C1 (amended) at the concrete failed `parse_s()` run. -/
theorem C1_amended_witness : pC1end.lexer.pos = pC1start.lexer.pos :=
  C1_amended_only_pos_restored "parse_s" bodyG1s pC1start pC1end rfl
    (by simp +decide [memoize, cacheLookup, genMethod, bodyG1s, matchTok, nextTokenP,
      setLexPos, Except.map, getNextToken, skipWhitespace, skipComment, skipCommentLine,
      skipCommentBlock, identifier, identLoop, advance, peek, c1text, lexerFixedSymbols,
      pC1start, pC1end])

/-- C2 (code bug): `_repeat_parse` contains no zero-consumption detection.
For the grammar `s = { [ "a" ] } ;` on empty input, the repetition body
`(self.match(TokenType.KEYWORD, "a") or True)` succeeds without consuming
anything, and the `while True` loop never terminates: no amount of fuel
makes the loop finish. -/
theorem C2_repeat_parse_diverges :
    mkGeneratedParser G2 [] = .ok pC2 ∧
    ∀ fuel : Nat, repeatParse fuel bodyG2opt pC2 = none := by
  refine ⟨?_, ?_⟩
  · simp +decide [mkGeneratedParser, Except.map, getNextToken, initLexer, G2,
      keywordsOf, preprocessGrammar, findLast, terminalValues, termValuesOf, termValuesOfList,
      pyIsAlpha, specialNames, symbolsOf, pyIsDigit, lexerFixedSymbols, pC2]
  intro fuel
  induction fuel with
  | zero => rfl
  | succ n ih =>
    have hbody : bodyG2opt pC2 = .ok (true, pC2) := rfl
    show repeatParse (n + 1) bodyG2opt pC2 = none
    rw [repeatParse, hbody]
    simpa using ih

/-- C5 (counterexample): for the grammar `s = "!" ;`, terminal
classification yields the symbol set `{"!"}`, but the generated lexer's
symbol set is the hard-coded literal set, which does not contain `!`;
lexing the input `"!"` with the generated lexer raises the
invalid-character error instead of producing a SYMBOL token. -/
theorem C5_counterexample :
    "!" ∈ symbolsOf (preprocessGrammar G5) ∧
    '!' ∉ (genLexerFor G5 ['!']).symbols ∧
    getNextToken (genLexerFor G5 ['!']) = .error (.invalidChar '!' 1 1) :=
  ⟨by decide, by decide, by
    simp +decide [genLexerFor, initLexer, getNextToken, peek, G5, keywordsOf,
      preprocessGrammar, findLast, terminalValues, termValuesOf, termValuesOfList, pyIsAlpha,
      specialNames, lexerFixedSymbols]⟩

/-- C5 (amended): the generator passes exactly the collected keyword set
to `StandardLexer` at construction, but the lexer's symbol set is the
fixed hard-coded set, identical for every grammar and unrelated to the
collected symbol classification. -/
theorem C5_amended_lexer_sets (ast : List GRule) (text : List Char) :
    (genLexerFor ast text).keywords = keywordsOf (preprocessGrammar ast) ∧
    (genLexerFor ast text).symbols = lexerFixedSymbols ∧
    (∀ ast2 : List GRule, (genLexerFor ast2 text).symbols = (genLexerFor ast text).symbols) :=
  ⟨rfl, rfl, fun _ => rfl⟩

/-- C9: `generate_parser_code` on a grammar that parsed to an empty rule
list fails with the index error from `self.ast[0]` instead of returning
generated parser source. -/
theorem C9_empty_grammar_generation_fails :
    fullGenerate [] = .error .indexOutOfRange := rfl

/-- C10: the generated recognizer's constructor immediately lexes the
first token (`self.next_token()` in `__init__`); whenever that first
`get_next_token` call raises a lexer error — bad character, unterminated
string — the construction itself fails with that error, before `parse()`
can be called. -/
theorem C10_constructor_primes_lookahead (ast : List GRule) (text : List Char) (e : LexErr)
    (h : getNextToken (genLexerFor ast text) = .error e) :
    mkGeneratedParser ast text = .error e := by
  unfold genLexerFor at h
  unfold mkGeneratedParser
  rw [h]
  rfl

/-- C3 (counterexample): for the grammar `expr = "(" , number , ")" ;
number = digit , { digit } ; digit = "0" | "1" ;` the digit-idiom rewrite
fires (all `number` references are nested, so they become
`Terminal("integerConstant")`), yet the emitted parser still contains
both `parse_digit` and `parse_number` (the skip condition looks for a
remaining `NonTerminal("integerConstant")`, which the rewrite just
removed); and for a `number` rule that is a bare `NonTerminal("digit")`,
the rewrite does not fire at all (the pattern check requires a
`Sequence`), leaving `NonTerminal("number")` in place. -/
theorem C3_counterexample :
    "digit" ∈ emittedRuleNames (preprocessGrammar G3) ∧
    "number" ∈ emittedRuleNames (preprocessGrammar G3) ∧
    preprocessGrammar G3b = G3b ∧
    containsNT "number" ((preprocessGrammar G3b).headD ⟨"", .terminal ""⟩).definition = true := by
  refine ⟨by decide, by decide, rfl, by decide⟩

/-- C3 (amended): when a `digit` rule exists and the `number` rule matches
the implemented `Sequence` pattern, preprocessing removes every
`NonTerminal("number")` from all rule definitions (nested occurrences
become `Terminal("integerConstant")`, a root occurrence is renamed to
`NonTerminal("integerConstant")`); the `number` rule itself is always
emitted, and the `digit` rule is emitted exactly when the
`integerConstant` skip condition fails on the preprocessed grammar. -/
theorem C3_amended_rewrite_and_emission (ast : List GRule) (nr dr : GRule)
    (hnum : findLast ast "number" = some nr)
    (hdig : findLast ast "digit" = some dr)
    (hpat : isDigitSequencePattern nr.definition = true) :
    (∀ r ∈ preprocessGrammar ast, containsNT "number" r.definition = false) ∧
    "number" ∈ emittedRuleNames (preprocessGrammar ast) ∧
    ("digit" ∈ emittedRuleNames (preprocessGrammar ast) ↔
      skipDigitCond (preprocessGrammar ast) = false) := by
  have hpre : preprocessGrammar ast =
      ast.map (fun r => { r with definition := topReplace r.definition }) := by
    simp only [preprocessGrammar, hnum, hdig, hpat, if_true]
  refine ⟨?_, ?_, ?_, ?_⟩
  · intro r hr
    rw [hpre, List.mem_map] at hr
    obtain ⟨r0, -, rfl⟩ := hr
    exact containsNT_topReplace r0.definition
  · obtain ⟨hmem, hname⟩ := findLast_mem hnum
    unfold emittedRuleNames
    rw [List.mem_map]
    refine ⟨{ nr with definition := topReplace nr.definition }, ?_, hname⟩
    rw [List.mem_filter]
    refine ⟨by rw [hpre]; exact List.mem_map_of_mem _ hmem, ?_⟩
    show (!(skipDigitCond (preprocessGrammar ast) && (nr.name == "digit"))) = true
    rw [hname]
    simp
  · intro h
    unfold emittedRuleNames at h
    rw [List.mem_map] at h
    obtain ⟨r2, h2, hname2⟩ := h
    rw [List.mem_filter] at h2
    obtain ⟨-, hcond⟩ := h2
    rw [hname2] at hcond
    simpa using hcond
  · intro hskip
    obtain ⟨hmem, hname⟩ := findLast_mem hdig
    unfold emittedRuleNames
    rw [List.mem_map]
    refine ⟨{ dr with definition := topReplace dr.definition }, ?_, hname⟩
    rw [List.mem_filter]
    refine ⟨by rw [hpre]; exact List.mem_map_of_mem _ hmem, ?_⟩
    show (!(skipDigitCond (preprocessGrammar ast) && (dr.name == "digit"))) = true
    simp [hskip]

/-- Witness for C3 (amended) on the concrete grammar `G3`. -/
theorem C3_amended_witness :
    containsNT "number"
      (Node.sequence [.terminal "(", .terminal "integerConstant", .terminal ")"]) = false ∧
    "number" ∈ emittedRuleNames (preprocessGrammar G3) ∧
    "digit" ∈ emittedRuleNames (preprocessGrammar G3) := by
  have h := C3_amended_rewrite_and_emission G3
    ⟨"number", .sequence [.nonTerminal "digit", .repetition (.nonTerminal "digit")]⟩
    ⟨"digit", .alternative [.terminal "0", .terminal "1"]⟩ rfl rfl rfl
  exact ⟨h.1 ⟨"expr", .sequence [.terminal "(", .terminal "integerConstant", .terminal ")"]⟩
      (List.mem_cons_self _ _),
    h.2.1, (h.2.2).mpr (by decide)⟩

/-- C4 (counterexample): the classification's "exactly when" fails in both
directions on the grammar `s = "12" | "" ;` — the multi-digit terminal
`"12"` is not entirely alphabetic, nonempty and not a single digit
character, yet it is excluded from the symbol set (the code excludes
every all-digit string, not just single digit characters); and the empty
terminal `""` is added to the symbol set although the claim requires
symbols to be non-empty. -/
theorem C4_counterexample :
    ¬ (("12" ∈ symbolsOf G4) ↔
      (pyIsAlpha "12" = false ∧ "12" ≠ "" ∧
        ¬ ("12".length = 1 ∧ pyIsDigit "12" = true))) ∧
    ¬ ((("" : String) ∈ symbolsOf G4) ↔
      (pyIsAlpha "" = false ∧ ("" : String) ≠ "" ∧
        ¬ ("".length = 1 ∧ pyIsDigit "" = true))) := by
  decide

/-- C4 (amended): a terminal value enters the keyword set exactly when it
occurs in the grammar, is not a reserved name, and satisfies Python
`isalpha`; it enters the symbol set exactly when it occurs, is not
reserved, and fails both `isalpha` and `isdigit` (so the empty string is
a symbol and whole digit runs are excluded); the three reserved names
never enter either set. -/
theorem C4_amended_classification (ast : List GRule) :
    (∀ v, v ∈ keywordsOf ast ↔
      (v ∈ terminalValues ast ∧ v ∉ specialNames ∧ pyIsAlpha v = true)) ∧
    (∀ v, v ∈ symbolsOf ast ↔
      (v ∈ terminalValues ast ∧ v ∉ specialNames ∧ pyIsAlpha v = false ∧
        pyIsDigit v = false)) ∧
    ("identifier" ∉ keywordsOf ast ∧ "identifier" ∉ symbolsOf ast ∧
      "integerConstant" ∉ keywordsOf ast ∧ "integerConstant" ∉ symbolsOf ast ∧
      "stringLiteral" ∉ keywordsOf ast ∧ "stringLiteral" ∉ symbolsOf ast) := by
  have hk : ∀ v, v ∈ keywordsOf ast ↔
      (v ∈ terminalValues ast ∧ v ∉ specialNames ∧ pyIsAlpha v = true) := by
    intro v
    simp [keywordsOf, List.mem_filter, and_assoc]
  have hs : ∀ v, v ∈ symbolsOf ast ↔
      (v ∈ terminalValues ast ∧ v ∉ specialNames ∧ pyIsAlpha v = false ∧
        pyIsDigit v = false) := by
    intro v
    simp [symbolsOf, List.mem_filter, and_assoc]
  have h3 : ∀ w ∈ specialNames, w ∉ keywordsOf ast ∧ w ∉ symbolsOf ast := fun w hw =>
    ⟨fun h => ((hk w).mp h).2.1 hw, fun h => ((hs w).mp h).2.1 hw⟩
  exact ⟨hk, hs, (h3 _ (by decide)).1, (h3 _ (by decide)).2, (h3 _ (by decide)).1,
    (h3 _ (by decide)).2, (h3 _ (by decide)).1, (h3 _ (by decide)).2⟩

/-- C7 (counterexample): a `{ x }` atom followed by `*` does not desugar
the postfix — `parse_term` returns from the brace branch immediately,
leaving the `*` token unconsumed, and the result is not
`Repetition(Repetition(x))`; likewise `[ x ]` followed by `?` leaves the
`?` unconsumed. -/
theorem C7_counterexample :
    parseTerm 9 [mkTok .LBRACE "\x7b", mkTok .IDENTIFIER "x", mkTok .RBRACE "\x7d",
        mkTok .STAR "*"] =
      .ok (.repetition (.nonTerminal "x"), [mkTok .STAR "*"]) ∧
    parseTerm 9 [mkTok .LBRACE "\x7b", mkTok .IDENTIFIER "x", mkTok .RBRACE "\x7d",
        mkTok .STAR "*"] ≠
      .ok (.repetition (.repetition (.nonTerminal "x")), []) ∧
    parseTerm 9 [mkTok .LBRACKET "[", mkTok .IDENTIFIER "x", mkTok .RBRACKET "]",
        mkTok .QUESTION "?"] =
      .ok (.optional (.nonTerminal "x"), [mkTok .QUESTION "?"]) := by
  refine ⟨rfl, ?_, rfl⟩
  intro h
  rw [show parseTerm 9 [mkTok .LBRACE "\x7b", mkTok .IDENTIFIER "x", mkTok .RBRACE "\x7d",
        mkTok .STAR "*"] =
      .ok (.repetition (.nonTerminal "x"), [mkTok .STAR "*"]) from rfl] at h
  simp at h

/-- C7 (amended): the postfix `*`, `+`, `?` desugarings hold for
`TERMINAL` atoms, `IDENTIFIER` atoms and parenthesized atoms (`*` to
`Repetition`, `+` to `Sequence(atom, Repetition(atom))`, `?` to
`Optional`); atoms formed with `{…}` or `[…]` return before the postfix
check, so a following postfix token is not consumed. -/
theorem C7_amended_postfix (fuel : Nat) (v : String) (l c : Nat) (rest : List MetaToken)
    (st pl qu : MetaToken)
    (hst : st.type = MetaTokenType.STAR) (hpl : pl.type = MetaTokenType.PLUS)
    (hqu : qu.type = MetaTokenType.QUESTION) :
    (parseTerm (fuel + 1) (⟨.TERMINAL, v, l, c⟩ :: st :: rest) =
      .ok (.repetition (.terminal v), rest)) ∧
    (parseTerm (fuel + 1) (⟨.TERMINAL, v, l, c⟩ :: pl :: rest) =
      .ok (.sequence [.terminal v, .repetition (.terminal v)], rest)) ∧
    (parseTerm (fuel + 1) (⟨.TERMINAL, v, l, c⟩ :: qu :: rest) =
      .ok (.optional (.terminal v), rest)) ∧
    (parseTerm (fuel + 1) (⟨.IDENTIFIER, v, l, c⟩ :: st :: rest) =
      .ok (.repetition (.nonTerminal v), rest)) ∧
    (parseTerm (fuel + 1) (⟨.IDENTIFIER, v, l, c⟩ :: pl :: rest) =
      .ok (.sequence [.nonTerminal v, .repetition (.nonTerminal v)], rest)) ∧
    (parseTerm (fuel + 1) (⟨.IDENTIFIER, v, l, c⟩ :: qu :: rest) =
      .ok (.optional (.nonTerminal v), rest)) ∧
    (∀ lp : MetaToken, lp.type = MetaTokenType.LPAREN →
      ∀ (inner : List MetaToken) (e : Node) (ts1 : List MetaToken),
        parseExpression fuel inner = .ok (e, ts1) →
        (curTok ts1).type = MetaTokenType.RPAREN →
        ((curTok ts1.tail).type = MetaTokenType.STAR →
          parseTerm (fuel + 1) (lp :: inner) = .ok (.repetition e, ts1.tail.tail)) ∧
        ((curTok ts1.tail).type = MetaTokenType.PLUS →
          parseTerm (fuel + 1) (lp :: inner) =
            .ok (.sequence [e, .repetition e], ts1.tail.tail)) ∧
        ((curTok ts1.tail).type = MetaTokenType.QUESTION →
          parseTerm (fuel + 1) (lp :: inner) = .ok (.optional e, ts1.tail.tail))) := by
  refine ⟨?_, ?_, ?_, ?_, ?_, ?_, ?_⟩
  · simp [parseTerm, eat, curTok, postfixStep, hst]
  · simp [parseTerm, eat, curTok, postfixStep, hpl]
  · simp [parseTerm, eat, curTok, postfixStep, hqu]
  · simp [parseTerm, eat, curTok, postfixStep, hst]
  · simp [parseTerm, eat, curTok, postfixStep, hpl]
  · simp [parseTerm, eat, curTok, postfixStep, hqu]
  · intro lp hlp inner e ts1 hpe hrp
    simp only [curTok, List.headD] at hrp
    refine ⟨?_, ?_, ?_⟩ <;> intro hpost <;>
      simp only [curTok, List.headD] at hpost <;>
      simp [parseTerm, eat, curTok, List.headD, postfixStep, hlp, hpe, hrp, hpost]

/-- Witness for C7 (amended): a `TERMINAL` atom with `*` and a
parenthesized atom with each of `*`, `+`, `?`, at concrete tokens. -/
theorem C7_amended_witness :
    parseTerm 4 [⟨.TERMINAL, "y", 2, 3⟩, mkTok .STAR "*"] =
      .ok (.repetition (.terminal "y"), []) ∧
    parseTerm 4 [mkTok .LPAREN "(", mkTok .IDENTIFIER "y", mkTok .RPAREN ")",
        mkTok .STAR "*"] =
      .ok (.repetition (.nonTerminal "y"), []) ∧
    parseTerm 4 [mkTok .LPAREN "(", mkTok .IDENTIFIER "y", mkTok .RPAREN ")",
        mkTok .PLUS "+"] =
      .ok (.sequence [.nonTerminal "y", .repetition (.nonTerminal "y")], []) ∧
    parseTerm 4 [mkTok .LPAREN "(", mkTok .IDENTIFIER "y", mkTok .RPAREN ")",
        mkTok .QUESTION "?"] =
      .ok (.optional (.nonTerminal "y"), []) := by
  have h := C7_amended_postfix 3 "y" 2 3 [] (mkTok .STAR "*") (mkTok .PLUS "+")
    (mkTok .QUESTION "?") rfl rfl rfl
  have h7 := h.2.2.2.2.2.2
  refine ⟨h.1, ?_, ?_, ?_⟩
  · exact (h7 (mkTok .LPAREN "(") rfl
      [mkTok .IDENTIFIER "y", mkTok .RPAREN ")", mkTok .STAR "*"]
      (.nonTerminal "y") [mkTok .RPAREN ")", mkTok .STAR "*"] rfl rfl).1 rfl
  · exact (h7 (mkTok .LPAREN "(") rfl
      [mkTok .IDENTIFIER "y", mkTok .RPAREN ")", mkTok .PLUS "+"]
      (.nonTerminal "y") [mkTok .RPAREN ")", mkTok .PLUS "+"] rfl rfl).2.1 rfl
  · exact (h7 (mkTok .LPAREN "(") rfl
      [mkTok .IDENTIFIER "y", mkTok .RPAREN ")", mkTok .QUESTION "?"]
      (.nonTerminal "y") [mkTok .RPAREN ")", mkTok .QUESTION "?"] rfl rfl).2.2 rfl

/-- C8 (counterexample): generation from `s = ghost ;` (a dangling
nonterminal) does not abort: it succeeds and the emitted parser calls
`self.parse_ghost()` although no `parse_ghost` method exists. -/
theorem C8_counterexample :
    fullGenerate G8 = .ok ⟨"s", [("s", ["parse_ghost"])]⟩ ∧
    "parse_ghost" ∈ allCalls ⟨"s", [("s", ["parse_ghost"])]⟩ ∧
    "parse_ghost" ∉ definedMethodNames ⟨"s", [("s", ["parse_ghost"])]⟩ := by
  refine ⟨rfl, by decide, by decide⟩

/-- C8 (amended): there is no dangling-`NonTerminal` check: for any
grammar rule (not suppressed at emission) whose definition references a
name that is neither a rule of the grammar nor a reserved built-in,
generation succeeds and the emitted source contains a `parse_<name>` call
with no matching method definition; the failure can only surface when the
generated parser runs. -/
theorem C8_amended_dangling_nonterminal (ast : List GRule) (r : GRule) (n : String)
    (hr : r ∈ ast) (hcon : containsNT n r.definition = true)
    (hnd : r.name ≠ "digit")
    (hnorule : ∀ r2 ∈ ast, r2.name ≠ n)
    (hns : n ∉ specialNames) :
    ∃ g, generateParser ast = .ok g ∧
      ("parse_" ++ n) ∈ allCalls g ∧ ("parse_" ++ n) ∉ definedMethodNames g := by
  cases ast with
  | nil => cases hr
  | cons r0 rest =>
    refine ⟨_, rfl, ?_, ?_⟩
    · unfold allCalls
      apply List.mem_cons_of_mem
      rw [List.mem_flatMap]
      refine ⟨(r.name, callsOf r.definition), ?_, mem_callsOf_of_containsNT n hns _ hcon⟩
      apply List.mem_map_of_mem
      rw [List.mem_filter]
      refine ⟨hr, ?_⟩
      have hb : (r.name == "digit") = false := by
        simpa using hnd
      rw [hb]
      simp
    · unfold definedMethodNames
      intro hmem
      simp only [List.mem_append, List.mem_cons, List.mem_map, List.not_mem_nil,
        or_false] at hmem
      rcases hmem with (h1 | h1 | h1 | h1) | ⟨m, ⟨r2, hr2, hr2m⟩, hpm⟩
      · have := congrArg String.length h1
        rw [String.length_append] at this
        rw [show ("parse_" : String).length = 6 from rfl,
          show ("parse" : String).length = 5 from rfl] at this
        omega
      · have hn2 : n = "identifier" :=
          parsePrefix_inj (h1.trans (by rfl))
        exact hns (by rw [hn2]; decide)
      · have hn2 : n = "integerConstant" :=
          parsePrefix_inj (h1.trans (by rfl))
        exact hns (by rw [hn2]; decide)
      · have hn2 : n = "stringLiteral" :=
          parsePrefix_inj (h1.trans (by rfl))
        exact hns (by rw [hn2]; decide)
      · have hn2 : m.1 = n := parsePrefix_inj hpm
        have hr2mem : r2 ∈ r0 :: rest := (List.mem_filter.mp hr2).1
        have : r2.name = m.1 := by rw [← hr2m]
        exact hnorule r2 hr2mem (this.trans hn2)

/-- Witness for C8 (amended) at the concrete dangling grammar `G8`. -/
theorem C8_amended_witness :
    ∃ g, generateParser G8 = .ok g ∧
      ("parse_" ++ "ghost") ∈ allCalls g ∧ ("parse_" ++ "ghost") ∉ definedMethodNames g := by
  refine C8_amended_dangling_nonterminal G8 ⟨"s", .nonTerminal "ghost"⟩ "ghost"
    (List.mem_cons_self _ _) (by decide) (by decide) ?_ (by decide)
  intro r2 hr2
  rcases List.mem_singleton.mp hr2 with rfl
  decide

/-- Witness for C10: the input `"@"` has a lexically invalid first
character, and construction fails with that very error. -/
theorem C10_witness :
    getNextToken (genLexerFor [] ['@']) = .error (.invalidChar '@' 1 1) ∧
    mkGeneratedParser [] ['@'] = .error (.invalidChar '@' 1 1) := by
  have h : getNextToken (genLexerFor [] ['@']) = .error (.invalidChar '@' 1 1) := by
    simp +decide [genLexerFor, initLexer, getNextToken, peek, keywordsOf, preprocessGrammar,
      findLast, terminalValues, termValuesOf, termValuesOfList, pyIsAlpha, specialNames,
      lexerFixedSymbols]
  exact ⟨h, C10_constructor_primes_lookahead [] ['@'] _ h⟩

end PG
